import Mathlib

/-!
Shallow embedding of the Nudge tutorial engine, from
src/src/composables/useTutorial.ts.

Modelling conventions:
* The engine state (the Vue refs of the composable plus the module-level
  mutable bindings) is the structure GState.  Machine integers are Int/Nat.
* Step callbacks (onEnter/onExit/onComplete/onClose) are opaque external
  side effects; a step records only whether the callback is present, and an
  invocation is recorded as an event in a trace (List Ev).  Callbacks are
  assumed not to re-enter the engine, matching the sequential cooperative
  model of the source (reentrancy is explicitly undefined behaviour).
* The event bus (module-level eventBus Map) is modelled from the engine's
  side: the only handlers that mutate engine state are the one-shot action
  handlers created by setupActionListener, identified by a generation
  number standing for JS closure identity (busSubs).  External host
  handlers do not touch engine state and are kept out of GState; the
  standalone dispatch model emitRun below covers the handler-isolation
  behaviour of emit for arbitrary subscriber lists.
* The nested emit of "tutorial:action-completed" inside an action handler
  is recorded in the trace without recursive dispatch; this is faithful
  whenever no waitForAction event is itself "tutorial:action-completed"
  (on that pathological name the source recurses without bound).
* localStorage is a key-value map from full key strings to values.
* DOM queries (document.querySelector + getBoundingClientRect) are an
  oracle Dom supplied by the environment at each call.
* setTimeout callbacks are pending timers fired by the environment
  (Op.fireTimeout); window scrolling only schedules a later
  updateTargetRect, which the environment can issue at any time
  (Op.updateRect), so the scroll body itself is not part of GState.
-/

namespace Nudge

/-- Opaque stand-in for a DOMRect measurement; the engine only stores it. -/
abbrev DOMRect := Nat

/-- Environment oracle: what document.querySelector plus
getBoundingClientRect would produce for a selector right now. -/
abbrev Dom := String → Option DOMRect

/-- The localStorage contents: a key-value map (the engine only reads and
writes keys of the storeKey shape). -/
abbrev Store := String → Option String

/-- The waitForAction field of a step: event name and optional timeout
in milliseconds. -/
structure WaitForAction where
  event : String
  timeout : Option Nat
deriving DecidableEq

/-- One tutorial step (src/types, re-exported interface TutorialStep).
Callbacks are modelled by presence flags; see the module docstring. -/
structure TutorialStep where
  id : String
  target : Option String := none
  title : String := ""
  description : String := ""
  placement : Option String := none
  blockInteractions : Option Bool := none
  waitForAction : Option WaitForAction := none
  allowSkipTo : Option (List String) := none
  popoverClass : Option String := none
  hasOnEnter : Bool := false
  hasOnExit : Bool := false
deriving DecidableEq

/-- One tour configuration (interface TutorialConfig). -/
structure TutorialConfig where
  id : String
  steps : List TutorialStep
  showProgress : Option Bool := none
  allowClose : Option Bool := none
  hasOnComplete : Bool := false
  hasOnClose : Bool := false
deriving DecidableEq

/-- An engine-owned bus subscription (a one-shot action handler closure):
the event name it is registered under and a generation number standing
for the identity of the JS closure. -/
structure BusSub where
  event : String
  gen : Nat
deriving DecidableEq

/-- Observable events of a run: bus publications, callback invocations and
the console log in start. -/
inductive Ev where
  | emitted (name : String)
  | onEnterCalled (stepId : String)
  | onExitCalled (stepId : String)
  | onCompleteCalled (cfgId : String)
  | onCloseCalled (cfgId : String)
  | logged (cfgId : String)
deriving DecidableEq

/-- Whole engine state: the composable's refs, the module-level
currentActionHandler binding, the engine-owned part of the event bus, the
pending setTimeout callbacks of setupActionListener, a generation counter
(closure identity supply) and the localStorage contents. -/
structure GState where
  config : Option TutorialConfig
  currentStepIndex : Int
  isActive : Bool
  isWaitingForAction : Bool
  targetRect : Option DOMRect
  currentActionHandler : Option BusSub
  busSubs : List BusSub
  pendingTimers : List BusSub
  nextGen : Nat
  store : Store

/-- localStorage.getItem. -/
def getItem (st : Store) (k : String) : Option String :=
  st k

/-- localStorage.setItem (key overwrite, last write wins). -/
def setItem (st : Store) (k v : String) : Store :=
  fun k2 => if k2 = k then some v else st k2

/-- localStorage.removeItem. -/
def removeItem (st : Store) (k : String) : Store :=
  fun k2 => if k2 = k then none else st k2

/-- The persistence key used by the engine for a tutorial id. -/
def storeKey (tutorialId : String) : String :=
  "tutorial:" ++ tutorialId ++ ":completed"

/-- JS array indexing steps[i] (undefined, i.e. none, when out of range
or negative). -/
def stepAt (steps : List TutorialStep) (i : Int) : Option TutorialStep :=
  if i < 0 then none else steps.get? i.toNat

/-- The currentStep computed ref. -/
def currentStep (s : GState) : Option TutorialStep :=
  match s.config with
  | none => none
  | some cfg =>
      if s.currentStepIndex < 0 then none
      else cfg.steps.get? s.currentStepIndex.toNat

/-- The totalSteps computed ref (as an integer, for index comparisons). -/
def totalSteps (s : GState) : Int :=
  match s.config with
  | none => 0
  | some cfg => cfg.steps.length

/-- The canGoNext computed ref. -/
def canGoNext (s : GState) : Bool :=
  if s.isWaitingForAction then false
  else decide (s.currentStepIndex < totalSteps s - 1)

/-- The canGoPrevious computed ref. -/
def canGoPrevious (s : GState) : Bool :=
  decide (s.currentStepIndex > 0)

/-- Event-bus on: Set.add under an event name (set semantics, insertion
order preserved). -/
def busOn (subs : List BusSub) (x : BusSub) : List BusSub :=
  if x ∈ subs then subs else subs ++ [x]

/-- Event-bus off: Set.delete (no-op when absent). -/
def busOff (subs : List BusSub) (x : BusSub) : List BusSub :=
  subs.erase x

/-- Body of the one-shot handler closure created in setupActionListener:
clear the waiting flag, emit tutorial:action-completed, deregister itself
and null the currentActionHandler binding. -/
def actionHandlerBody (s : GState) (x : BusSub) : GState × List Ev :=
  ({ s with isWaitingForAction := false,
            busSubs := busOff s.busSubs x,
            currentActionHandler := none },
   [Ev.emitted "tutorial:action-completed"])

/-- Run the engine-owned handlers matched by a publication, in
registration order (the forEach in emit, restricted to the handlers that
touch engine state; each handler only ever deletes itself, so iterating
the snapshot matches live Set iteration). -/
def dispatchList (s : GState) : List BusSub → GState × List Ev
  | [] => (s, [])
  | x :: rest =>
      let r := actionHandlerBody s x
      let r2 := dispatchList r.1 rest
      (r2.1, r.2 ++ r2.2)

/-- Publish an event on the bus (the emit function): invoke every
currently registered matching engine handler. -/
def emit (s : GState) (event : String) : GState × List Ev :=
  let r := dispatchList s (s.busSubs.filter (fun x => x.event = event))
  (r.1, Ev.emitted event :: r.2)

/-- What updateTargetRect stores: resolve the current step's target
selector against the DOM oracle, none when the step has no (truthy)
target or the selector resolves to nothing. -/
def resolveRect (s : GState) (dom : Dom) : Option DOMRect :=
  match currentStep s with
  | none => none
  | some st =>
      match st.target with
      | none => none
      | some sel => if sel = "" then none else dom sel

/-- The updateTargetRect function (every branch of the source assigns
targetRect; the assigned value is resolveRect). -/
def updateTargetRect (s : GState) (dom : Dom) : GState :=
  { s with targetRect := resolveRect s dom }

/-- JS truthiness of the optional numeric timeout: undefined and 0 are
falsy. -/
def timeoutTruthy : Option Nat → Bool
  | none => false
  | some t => decide (t ≠ 0)

/-- The setupActionListener function: register a fresh one-shot handler on
the event name, remember it in currentActionHandler and, when the timeout
is truthy, schedule the fallback timer (the timer closes over the event
name and the handler closure). -/
def setupActionListener (s : GState) (eventName : String)
    (timeout : Option Nat) : GState :=
  let x : BusSub := ⟨eventName, s.nextGen⟩
  let s1 := { s with busSubs := busOn s.busSubs x,
                     currentActionHandler := some x,
                     nextGen := s.nextGen + 1 }
  if timeoutTruthy timeout then
    { s1 with pendingTimers := s1.pendingTimers ++ [x] }
  else s1

/-- The body of the setTimeout fallback in setupActionListener, fired by
the environment: once fired the timer is spent; if the waiting flag still
holds, clear it, deregister the captured handler and null
currentActionHandler.  The callback publishes nothing (empty trace). -/
def fireTimeout (s : GState) (x : BusSub) : GState × List Ev :=
  if x ∈ s.pendingTimers then
    let s1 := { s with pendingTimers := s.pendingTimers.erase x }
    if s1.isWaitingForAction then
      ({ s1 with isWaitingForAction := false,
                 busSubs := busOff s1.busSubs x,
                 currentActionHandler := none }, [])
    else (s1, [])
  else (s, [])

/-- Trace of the "exit current step" phase of goToStep: the onExit
invocation of the current step when it exists and has one. -/
def exitTrace (cur : Option TutorialStep) : List Ev :=
  match cur with
  | some c => if c.hasOnExit then [Ev.onExitCalled c.id] else []
  | none => []

/-- Trace of the "enter new step" phase of goToStep: the onEnter
invocation of the new step when it has one. -/
def enterTrace (step : TutorialStep) : List Ev :=
  if step.hasOnEnter then [Ev.onEnterCalled step.id] else []

/-- Clean up the previous action listener (the shared cleanup block of
goToStep and close): deregister it from the bus and null the binding. -/
def cleanupHandler (s : GState) : GState :=
  match s.currentActionHandler with
  | some x => { s with busSubs := busOff s.busSubs x,
                       currentActionHandler := none }
  | none => s

/-- The "set up wait for action if needed" block of goToStep: when the new
step declares waitForAction, raise the waiting flag and register the
listener. -/
def applyWait (s : GState) (wfa : Option WaitForAction) : GState :=
  match wfa with
  | some w =>
      setupActionListener { s with isWaitingForAction := true }
        w.event w.timeout
  | none => s

/-- The goToStep function. -/
def goToStep (s : GState) (index : Int) (dom : Dom) : GState × List Ev :=
  match s.config with
  | none => (s, [])
  | some cfg =>
      match stepAt cfg.steps index with
      | none => (s, [])
      | some step =>
          let s1 := cleanupHandler s
          let exitTr := exitTrace (currentStep s1)
          let s2 := { s1 with currentStepIndex := index,
                              isWaitingForAction := false }
          let s3 := updateTargetRect s2 dom
          let enterTr := enterTrace step
          let s4 := applyWait s3 step.waitForAction
          let r := emit s4 "tutorial:step-change"
          (r.1, exitTr ++ enterTr ++ r.2)

/-- The start function: install the configuration, set the index to 0,
mark active, read (and only log) the persisted completion flag, emit
tutorial:start, then goToStep 0. -/
def start (s : GState) (cfg : TutorialConfig) (dom : Dom) :
    GState × List Ev :=
  let s1 := { s with config := some cfg, currentStepIndex := 0,
                     isActive := true }
  let logTr :=
    if getItem s1.store (storeKey cfg.id) = some "true" then
      [Ev.logged cfg.id]
    else []
  let r1 := emit s1 "tutorial:start"
  let r2 := goToStep r1.1 0 dom
  (r2.1, logTr ++ r1.2 ++ r2.2)

/-- The next function. -/
def next (s : GState) (dom : Dom) : GState × List Ev :=
  if canGoNext s then goToStep s (s.currentStepIndex + 1) dom else (s, [])

/-- The previous function. -/
def previous (s : GState) (dom : Dom) : GState × List Ev :=
  if canGoPrevious s then goToStep s (s.currentStepIndex - 1) dom
  else (s, [])

/-- The skipTo function (findIndex by step id, silently ignored when
absent). -/
def skipTo (s : GState) (stepId : String) (dom : Dom) : GState × List Ev :=
  match s.config with
  | none => (s, [])
  | some cfg =>
      match cfg.steps.findIdx? (fun st => st.id = stepId) with
      | some i => goToStep s (Int.ofNat i) dom
      | none => (s, [])

/-- The close function. -/
def close (s : GState) : GState × List Ev :=
  match s.config with
  | none => (s, [])
  | some cfg =>
      let s1 := cleanupHandler s
      let r := emit s1 "tutorial:close"
      let closeTr :=
        if cfg.hasOnClose then [Ev.onCloseCalled cfg.id] else []
      let s2 := { r.1 with isActive := false, currentStepIndex := -1,
                           config := none, targetRect := none,
                           isWaitingForAction := false }
      (s2, r.2 ++ closeTr)

/-- The complete function: record completion, emit tutorial:complete,
invoke onComplete when present, then close. -/
def complete (s : GState) : GState × List Ev :=
  match s.config with
  | none => (s, [])
  | some cfg =>
      let s1 := { s with store := setItem s.store (storeKey cfg.id) "true" }
      let r := emit s1 "tutorial:complete"
      let compTr :=
        if cfg.hasOnComplete then [Ev.onCompleteCalled cfg.id] else []
      let r2 := close r.1
      (r2.1, r.2 ++ compTr ++ r2.2)

/-- The triggerAction function: a plain publish. -/
def triggerAction (s : GState) (actionName : String) : GState × List Ev :=
  emit s actionName

/-- The isCompleted query. -/
def isCompleted (s : GState) (tutorialId : String) : Bool :=
  getItem s.store (storeKey tutorialId) = some "true"

/-- The resetCompletion function. -/
def resetCompletion (s : GState) (tutorialId : String) : GState :=
  { s with store := removeItem s.store (storeKey tutorialId) }

/-- Operations the host, presentation layer or environment can perform on
a running engine; DOM-reading operations carry the oracle the environment
answers with, fireTimeout names a scheduled timer, updateRect covers both
direct host calls and the resize/scroll-settle recomputations. -/
inductive Op where
  | start (cfg : TutorialConfig) (dom : Dom)
  | goToStep (index : Int) (dom : Dom)
  | next (dom : Dom)
  | previous (dom : Dom)
  | skipTo (stepId : String) (dom : Dom)
  | complete
  | close
  | triggerAction (name : String)
  | updateRect (dom : Dom)
  | fireTimeout (x : BusSub)
  | resetCompletion (tutorialId : String)

/-- Apply one operation to the engine state (dropping the trace). -/
def applyOp (s : GState) : Op → GState
  | .start cfg dom => (start s cfg dom).1
  | .goToStep i dom => (goToStep s i dom).1
  | .next dom => (next s dom).1
  | .previous dom => (previous s dom).1
  | .skipTo stepId dom => (skipTo s stepId dom).1
  | .complete => (complete s).1
  | .close => (close s).1
  | .triggerAction name => (triggerAction s name).1
  | .updateRect dom => updateTargetRect s dom
  | .fireTimeout x => (fireTimeout s x).1
  | .resetCompletion tid => resetCompletion s tid

/-- Run a sequence of operations. -/
def run (s : GState) (ops : List Op) : GState :=
  ops.foldl applyOp s

/-- Freshly created engine over a given (process-wide) localStorage
contents: the initial values of the refs and module bindings. -/
def initState (store : Store) : GState :=
  { config := none, currentStepIndex := -1, isActive := false,
    isWaitingForAction := false, targetRect := none,
    currentActionHandler := none, busSubs := [], pendingTimers := [],
    nextGen := 0, store := store }

/-- DOM oracle resolving nothing (no element matches any selector). -/
def domNone : Dom := fun _ => none

/-- The empty localStorage. -/
def emptyStore : Store := fun _ => none

/-- A bus subscriber as seen by emit: an identity and whether invoking it
throws. -/
structure Handler where
  hid : Nat
  throws : Bool
deriving DecidableEq

/-- Semantics of the dispatch loop of emit (handlers.forEach with no
per-handler exception isolation): a callback that throws aborts the
iteration and the exception propagates to the publisher.  Returns the
identities of the handlers actually invoked and whether the dispatch ran
to completion. -/
def emitRun : List Handler → List Nat × Bool
  | [] => ([], true)
  | h :: rest =>
      if h.throws then ([h.hid], false)
      else
        let r := emitRun rest
        (h.hid :: r.1, r.2)

/-- Does an event belong to the close teardown path: the tutorial:close
publication or an onClose invocation? -/
def isCloseTeardown : Ev → Bool
  | .emitted n => n = "tutorial:close"
  | .onCloseCalled _ => true
  | _ => false

/-- Is an event the console log record of start? -/
def isLogEv : Ev → Bool
  | .logged _ => true
  | _ => false

/-- All engine-visible state except the persistence store. -/
def engineProj (s : GState) :=
  (s.config, s.currentStepIndex, s.isActive, s.isWaitingForAction,
   s.targetRect, s.currentActionHandler, s.busSubs, s.pendingTimers,
   s.nextGen)

/-- Two engine states that agree on every field except (possibly) the
persistence store. -/
def sameCore (s t : GState) : Prop :=
  s.config = t.config ∧ s.currentStepIndex = t.currentStepIndex ∧
  s.isActive = t.isActive ∧
  s.isWaitingForAction = t.isWaitingForAction ∧
  s.targetRect = t.targetRect ∧
  s.currentActionHandler = t.currentActionHandler ∧
  s.busSubs = t.busSubs ∧ s.pendingTimers = t.pendingTimers ∧
  s.nextGen = t.nextGen

/-- Fold a sequence of triggerAction publications over the state. -/
def runTriggers (s : GState) (names : List String) : GState :=
  names.foldl (fun st n => (triggerAction st n).1) s

/-- Does an operation reset the persisted completion flag of a given
tutorial id? -/
def opResetsCompletion (c : String) : Op → Bool
  | .resetCompletion tid => tid = c
  | _ => false

/-- The idle-state shape: whenever no configuration is held, all derived
and cached state is at its cleared values. -/
def resetInv (s : GState) : Prop :=
  s.config = none →
    s.isActive = false ∧ s.currentStepIndex = -1 ∧
    s.targetRect = none ∧ s.isWaitingForAction = false

/-- A configuration with an empty steps list. -/
def cfgEmpty : TutorialConfig := { id := "t", steps := [] }

/-- A first step carrying an onExit callback. -/
def stepExit : TutorialStep := { id := "s1", hasOnExit := true }

/-- A one-step configuration whose first step has an onExit callback. -/
def cfgExit : TutorialConfig := { id := "t", steps := [stepExit] }

/-- A one-step configuration with an onClose callback. -/
def cfgA : TutorialConfig :=
  { id := "a", steps := [{ id := "a1" }], hasOnClose := true }

/-- A second one-step configuration. -/
def cfgB : TutorialConfig := { id := "b", steps := [{ id := "b1" }] }

/-- The engine state while cfgA is active. -/
def stateA : GState := (start (initState emptyStore) cfgA domNone).1

/-- A wait-for-action gate with no timeout. -/
def wfaPlain : WaitForAction := { event := "go", timeout := none }

/-- A wait-for-action gate with a 1000 ms timeout. -/
def wfaT : WaitForAction := { event := "go", timeout := some 1000 }

/-- A wait-for-action gate with a zero timeout. -/
def wfaZero : WaitForAction := { event := "go", timeout := some 0 }

/-- A step gated on the "go" action, no timeout. -/
def stepWait : TutorialStep := { id := "w1", waitForAction := some wfaPlain }

/-- A step gated on the "go" action with a 1000 ms timeout. -/
def stepWaitT : TutorialStep := { id := "w1", waitForAction := some wfaT }

/-- A step gated on the "go" action with a zero timeout. -/
def stepWaitZero : TutorialStep :=
  { id := "w1", waitForAction := some wfaZero }

/-- A one-step tour gated on "go". -/
def cfgWait : TutorialConfig := { id := "w", steps := [stepWait] }

/-- A one-step tour gated on "go" with a 1000 ms timeout. -/
def cfgWaitT : TutorialConfig := { id := "w", steps := [stepWaitT] }

/-- A one-step tour gated on "go" with a zero timeout. -/
def cfgWaitZero : TutorialConfig := { id := "w", steps := [stepWaitZero] }

/-- An idle engine holding the gated tour configuration (base state for
instantiating the gate theorems). -/
def stateWaitBase : GState := { initState emptyStore with config := some cfgWait }

/-- An idle engine holding the timeout-gated tour configuration. -/
def stateWaitTBase : GState := { initState emptyStore with config := some cfgWaitT }

/-- An idle engine holding the zero-timeout gated tour configuration. -/
def stateWaitZeroBase : GState :=
  { initState emptyStore with config := some cfgWaitZero }

@[simp] theorem dispatchList_config (l : List BusSub) (s : GState) :
    ((dispatchList s l).1).config = s.config := by
  induction l generalizing s with
  | nil => rfl
  | cons x rest ih => simp [dispatchList, actionHandlerBody, ih]

@[simp] theorem dispatchList_currentStepIndex (l : List BusSub)
    (s : GState) :
    ((dispatchList s l).1).currentStepIndex = s.currentStepIndex := by
  induction l generalizing s with
  | nil => rfl
  | cons x rest ih => simp [dispatchList, actionHandlerBody, ih]

@[simp] theorem dispatchList_isActive (l : List BusSub) (s : GState) :
    ((dispatchList s l).1).isActive = s.isActive := by
  induction l generalizing s with
  | nil => rfl
  | cons x rest ih => simp [dispatchList, actionHandlerBody, ih]

@[simp] theorem dispatchList_targetRect (l : List BusSub) (s : GState) :
    ((dispatchList s l).1).targetRect = s.targetRect := by
  induction l generalizing s with
  | nil => rfl
  | cons x rest ih => simp [dispatchList, actionHandlerBody, ih]

@[simp] theorem dispatchList_pendingTimers (l : List BusSub) (s : GState) :
    ((dispatchList s l).1).pendingTimers = s.pendingTimers := by
  induction l generalizing s with
  | nil => rfl
  | cons x rest ih => simp [dispatchList, actionHandlerBody, ih]

@[simp] theorem dispatchList_nextGen (l : List BusSub) (s : GState) :
    ((dispatchList s l).1).nextGen = s.nextGen := by
  induction l generalizing s with
  | nil => rfl
  | cons x rest ih => simp [dispatchList, actionHandlerBody, ih]

@[simp] theorem dispatchList_store (l : List BusSub) (s : GState) :
    ((dispatchList s l).1).store = s.store := by
  induction l generalizing s with
  | nil => rfl
  | cons x rest ih => simp [dispatchList, actionHandlerBody, ih]

theorem dispatchList_waiting_mono (l : List BusSub) (s : GState)
    (h : ((dispatchList s l).1).isWaitingForAction = true) :
    s.isWaitingForAction = true := by
  induction l generalizing s with
  | nil => exact h
  | cons x rest ih =>
      have hx := ih ((actionHandlerBody s x).1) (by simpa [dispatchList] using h)
      simp [actionHandlerBody] at hx

theorem dispatchList_trace (l : List BusSub) (s : GState) :
    ∀ e ∈ (dispatchList s l).2,
      e = Ev.emitted "tutorial:action-completed" := by
  induction l generalizing s with
  | nil => intro e he; simp [dispatchList] at he
  | cons x rest ih =>
      intro e he
      simp only [dispatchList, actionHandlerBody, List.mem_append,
        List.mem_singleton] at he
      rcases he with he | he
      · exact he
      · exact ih _ e he

@[simp] theorem emit_config (s : GState) (n : String) :
    ((emit s n).1).config = s.config := by simp [emit]

@[simp] theorem emit_currentStepIndex (s : GState) (n : String) :
    ((emit s n).1).currentStepIndex = s.currentStepIndex := by simp [emit]

@[simp] theorem emit_isActive (s : GState) (n : String) :
    ((emit s n).1).isActive = s.isActive := by simp [emit]

@[simp] theorem emit_targetRect (s : GState) (n : String) :
    ((emit s n).1).targetRect = s.targetRect := by simp [emit]

@[simp] theorem emit_pendingTimers (s : GState) (n : String) :
    ((emit s n).1).pendingTimers = s.pendingTimers := by simp [emit]

@[simp] theorem emit_nextGen (s : GState) (n : String) :
    ((emit s n).1).nextGen = s.nextGen := by simp [emit]

@[simp] theorem emit_store (s : GState) (n : String) :
    ((emit s n).1).store = s.store := by simp [emit]

theorem emit_waiting_mono (s : GState) (n : String)
    (h : ((emit s n).1).isWaitingForAction = true) :
    s.isWaitingForAction = true := by
  exact dispatchList_waiting_mono _ _ (by simpa [emit] using h)

theorem emit_trace (s : GState) (n : String) :
    ∀ e ∈ (emit s n).2,
      e = Ev.emitted n ∨ e = Ev.emitted "tutorial:action-completed" := by
  intro e he
  simp only [emit, List.mem_cons] at he
  rcases he with he | he
  · exact Or.inl he
  · exact Or.inr (dispatchList_trace _ _ e he)

@[simp] theorem updateTargetRect_config (s : GState) (dom : Dom) :
    (updateTargetRect s dom).config = s.config := rfl

@[simp] theorem updateTargetRect_currentStepIndex (s : GState) (dom : Dom) :
    (updateTargetRect s dom).currentStepIndex = s.currentStepIndex := rfl

@[simp] theorem updateTargetRect_isActive (s : GState) (dom : Dom) :
    (updateTargetRect s dom).isActive = s.isActive := rfl

@[simp] theorem updateTargetRect_isWaitingForAction (s : GState)
    (dom : Dom) :
    (updateTargetRect s dom).isWaitingForAction = s.isWaitingForAction :=
  rfl

@[simp] theorem updateTargetRect_currentActionHandler (s : GState)
    (dom : Dom) :
    (updateTargetRect s dom).currentActionHandler
      = s.currentActionHandler := rfl

@[simp] theorem updateTargetRect_busSubs (s : GState) (dom : Dom) :
    (updateTargetRect s dom).busSubs = s.busSubs := rfl

@[simp] theorem updateTargetRect_pendingTimers (s : GState) (dom : Dom) :
    (updateTargetRect s dom).pendingTimers = s.pendingTimers := rfl

@[simp] theorem updateTargetRect_nextGen (s : GState) (dom : Dom) :
    (updateTargetRect s dom).nextGen = s.nextGen := rfl

@[simp] theorem updateTargetRect_store (s : GState) (dom : Dom) :
    (updateTargetRect s dom).store = s.store := rfl

@[simp] theorem updateTargetRect_targetRect (s : GState) (dom : Dom) :
    (updateTargetRect s dom).targetRect = resolveRect s dom := rfl

@[simp] theorem setupActionListener_config (s : GState) (e : String)
    (t : Option Nat) : (setupActionListener s e t).config = s.config := by
  unfold setupActionListener; dsimp only; split <;> rfl

@[simp] theorem setupActionListener_currentStepIndex (s : GState)
    (e : String) (t : Option Nat) :
    (setupActionListener s e t).currentStepIndex = s.currentStepIndex := by
  unfold setupActionListener; dsimp only; split <;> rfl

@[simp] theorem setupActionListener_isActive (s : GState) (e : String)
    (t : Option Nat) :
    (setupActionListener s e t).isActive = s.isActive := by
  unfold setupActionListener; dsimp only; split <;> rfl

@[simp] theorem setupActionListener_isWaitingForAction (s : GState)
    (e : String) (t : Option Nat) :
    (setupActionListener s e t).isWaitingForAction
      = s.isWaitingForAction := by
  unfold setupActionListener; dsimp only; split <;> rfl

@[simp] theorem setupActionListener_targetRect (s : GState) (e : String)
    (t : Option Nat) :
    (setupActionListener s e t).targetRect = s.targetRect := by
  unfold setupActionListener; dsimp only; split <;> rfl

@[simp] theorem setupActionListener_store (s : GState) (e : String)
    (t : Option Nat) : (setupActionListener s e t).store = s.store := by
  unfold setupActionListener; dsimp only; split <;> rfl

@[simp] theorem setupActionListener_busSubs (s : GState) (e : String)
    (t : Option Nat) :
    (setupActionListener s e t).busSubs
      = busOn s.busSubs ⟨e, s.nextGen⟩ := by
  unfold setupActionListener; dsimp only; split <;> rfl

@[simp] theorem setupActionListener_currentActionHandler (s : GState)
    (e : String) (t : Option Nat) :
    (setupActionListener s e t).currentActionHandler
      = some ⟨e, s.nextGen⟩ := by
  unfold setupActionListener; dsimp only; split <;> rfl

@[simp] theorem setupActionListener_nextGen (s : GState) (e : String)
    (t : Option Nat) :
    (setupActionListener s e t).nextGen = s.nextGen + 1 := by
  unfold setupActionListener; dsimp only; split <;> rfl

@[simp] theorem setupActionListener_pendingTimers (s : GState)
    (e : String) (t : Option Nat) :
    (setupActionListener s e t).pendingTimers
      = s.pendingTimers
        ++ (if timeoutTruthy t then [⟨e, s.nextGen⟩] else []) := by
  unfold setupActionListener; dsimp only
  split <;> simp_all

theorem exitTrace_mem (cur : Option TutorialStep) (e : Ev)
    (h : e ∈ exitTrace cur) : ∃ sid, e = Ev.onExitCalled sid := by
  unfold exitTrace at h
  cases cur with
  | none => simp at h
  | some c =>
      by_cases hx : c.hasOnExit <;> simp [hx] at h
      exact ⟨c.id, h⟩

theorem enterTrace_mem (step : TutorialStep) (e : Ev)
    (h : e ∈ enterTrace step) : ∃ sid, e = Ev.onEnterCalled sid := by
  unfold enterTrace at h
  by_cases hx : step.hasOnEnter <;> simp [hx] at h
  exact ⟨step.id, h⟩

theorem goToStep_config (s : GState) (i : Int) (dom : Dom) :
    ((goToStep s i dom).1).config = s.config := by
  cases hc : s.config with
  | none => simp [goToStep, hc]
  | some cfg =>
      cases hs : stepAt cfg.steps i with
      | none => simp [goToStep, hc, hs]
      | some step =>
          cases hact : s.currentActionHandler <;>
            cases hwfa : step.waitForAction <;>
              simp [goToStep, cleanupHandler, applyWait, hc, hs, hact,
                hwfa]

theorem goToStep_isActive (s : GState) (i : Int) (dom : Dom) :
    ((goToStep s i dom).1).isActive = s.isActive := by
  cases hc : s.config with
  | none => simp [goToStep, hc]
  | some cfg =>
      cases hs : stepAt cfg.steps i with
      | none => simp [goToStep, hc, hs]
      | some step =>
          cases hact : s.currentActionHandler <;>
            cases hwfa : step.waitForAction <;>
              simp [goToStep, cleanupHandler, applyWait, hc, hs, hact,
                hwfa]

theorem goToStep_store (s : GState) (i : Int) (dom : Dom) :
    ((goToStep s i dom).1).store = s.store := by
  cases hc : s.config with
  | none => simp [goToStep, hc]
  | some cfg =>
      cases hs : stepAt cfg.steps i with
      | none => simp [goToStep, hc, hs]
      | some step =>
          cases hact : s.currentActionHandler <;>
            cases hwfa : step.waitForAction <;>
              simp [goToStep, cleanupHandler, applyWait, hc, hs, hact,
                hwfa]

theorem goToStep_of_config_none (s : GState) (i : Int) (dom : Dom)
    (hc : s.config = none) : goToStep s i dom = (s, []) := by
  simp [goToStep, hc]

theorem goToStep_trace (s : GState) (i : Int) (dom : Dom) :
    ∀ e ∈ (goToStep s i dom).2,
      (∃ sid, e = Ev.onExitCalled sid) ∨
      (∃ sid, e = Ev.onEnterCalled sid) ∨
      e = Ev.emitted "tutorial:step-change" ∨
      e = Ev.emitted "tutorial:action-completed" := by
  intro e he
  cases hc : s.config with
  | none => rw [goToStep_of_config_none s i dom hc] at he; simp at he
  | some cfg =>
      cases hs : stepAt cfg.steps i with
      | none => simp [goToStep, hc, hs] at he
      | some step =>
          simp only [goToStep, hc, hs, List.mem_append] at he
          rcases he with (he | he) | he
          · exact Or.inl (exitTrace_mem _ e he)
          · exact Or.inr (Or.inl (enterTrace_mem _ e he))
          · rcases emit_trace _ _ e he with h | h
            · exact Or.inr (Or.inr (Or.inl h))
            · exact Or.inr (Or.inr (Or.inr h))

theorem close_of_config_none (s : GState) (hc : s.config = none) :
    close s = (s, []) := by
  simp [close, hc]

theorem close_resets (s : GState) (cfg : TutorialConfig)
    (hc : s.config = some cfg) :
    ((close s).1).isActive = false ∧
    ((close s).1).currentStepIndex = -1 ∧
    ((close s).1).config = none ∧
    ((close s).1).targetRect = none ∧
    ((close s).1).isWaitingForAction = false := by
  cases hact : s.currentActionHandler <;> simp [close, cleanupHandler, hc, hact]

theorem close_store (s : GState) : ((close s).1).store = s.store := by
  cases hc : s.config with
  | none => simp [close, hc]
  | some cfg => cases hact : s.currentActionHandler <;> simp [close, cleanupHandler, hc, hact]

theorem close_isWaiting_false (s : GState) (cfg : TutorialConfig)
    (hc : s.config = some cfg) :
    ((close s).1).isWaitingForAction = false :=
  (close_resets s cfg hc).2.2.2.2

theorem complete_of_config_none (s : GState) (hc : s.config = none) :
    complete s = (s, []) := by
  simp [complete, hc]

theorem complete_store_some (s : GState) (cfg : TutorialConfig)
    (hc : s.config = some cfg) :
    ((complete s).1).store = setItem s.store (storeKey cfg.id) "true" := by
  simp [complete, hc, close_store]

theorem complete_config (s : GState) : ((complete s).1).config = none ∨
    (complete s).1 = s := by
  cases hc : s.config with
  | none => right; simp [complete, hc]
  | some cfg =>
      left
      have := (close_resets (emit
        { s with store := setItem s.store (storeKey cfg.id) "true" }
        "tutorial:complete").1 cfg (by simp [emit_config, hc])).2.2.1
      simpa [complete, hc] using this

theorem start_config (s : GState) (cfg : TutorialConfig) (dom : Dom) :
    ((start s cfg dom).1).config = some cfg := by
  simp [start, goToStep_config]

theorem start_isActive (s : GState) (cfg : TutorialConfig) (dom : Dom) :
    ((start s cfg dom).1).isActive = true := by
  simp [start, goToStep_isActive]

theorem start_store (s : GState) (cfg : TutorialConfig) (dom : Dom) :
    ((start s cfg dom).1).store = s.store := by
  simp [start, goToStep_store]

theorem start_trace (s : GState) (cfg : TutorialConfig) (dom : Dom) :
    ∀ e ∈ (start s cfg dom).2,
      e = Ev.logged cfg.id ∨
      e = Ev.emitted "tutorial:start" ∨
      e = Ev.emitted "tutorial:action-completed" ∨
      (∃ sid, e = Ev.onExitCalled sid) ∨
      (∃ sid, e = Ev.onEnterCalled sid) ∨
      e = Ev.emitted "tutorial:step-change" := by
  intro e he
  simp only [start, List.mem_append] at he
  rcases he with (he | he) | he
  · split at he <;> simp at he
    exact Or.inl he
  · rcases emit_trace _ _ e he with h | h
    · exact Or.inr (Or.inl h)
    · exact Or.inr (Or.inr (Or.inl h))
  · rcases goToStep_trace _ _ _ e he with h | h | h | h
    · exact Or.inr (Or.inr (Or.inr (Or.inl h)))
    · exact Or.inr (Or.inr (Or.inr (Or.inr (Or.inl h))))
    · exact Or.inr (Or.inr (Or.inr (Or.inr (Or.inr h))))
    · exact Or.inr (Or.inr (Or.inl h))

theorem start_no_close_teardown (s : GState) (cfg : TutorialConfig)
    (dom : Dom) :
    ∀ e ∈ (start s cfg dom).2, isCloseTeardown e = false := by
  intro e he
  rcases start_trace s cfg dom e he with h | h | h | ⟨sid, h⟩ | ⟨sid, h⟩ | h <;>
    subst h <;> simp [isCloseTeardown]

theorem currentStep_of_config_none (s : GState) (h : s.config = none) :
    currentStep s = none := by
  simp [currentStep, h]

theorem resetInv_initState (σ : Store) :
    resetInv (initState σ) := by
  intro _
  exact ⟨rfl, rfl, rfl, rfl⟩

theorem goToStep_resetInv (s : GState) (i : Int) (dom : Dom)
    (h : resetInv s) : resetInv ((goToStep s i dom).1) := by
  intro hcfg
  rw [goToStep_config] at hcfg
  rw [goToStep_of_config_none s i dom hcfg]
  exact h hcfg

theorem updateTargetRect_resetInv (s : GState) (dom : Dom)
    (h : resetInv s) : resetInv (updateTargetRect s dom) := by
  intro hcfg
  rw [updateTargetRect_config] at hcfg
  obtain ⟨h1, h2, _, h4⟩ := h hcfg
  refine ⟨by simpa using h1, by simpa using h2, ?_, by simpa using h4⟩
  rw [updateTargetRect_targetRect]
  simp [resolveRect, currentStep_of_config_none s hcfg]

theorem emit_resetInv (s : GState) (n : String) (h : resetInv s) :
    resetInv ((emit s n).1) := by
  intro hcfg
  rw [emit_config] at hcfg
  obtain ⟨h1, h2, h3, h4⟩ := h hcfg
  refine ⟨by simp [h1], by simp [h2], by simp [h3], ?_⟩
  cases hw : ((emit s n).1).isWaitingForAction
  · rfl
  · exact absurd (emit_waiting_mono s n hw) (by simp [h4])

theorem fireTimeout_resetInv (s : GState) (x : BusSub) (h : resetInv s) :
    resetInv ((fireTimeout s x).1) := by
  unfold fireTimeout
  split
  · dsimp only
    split
    · intro hcfg
      obtain ⟨h1, h2, h3, _⟩ := h hcfg
      exact ⟨h1, h2, h3, rfl⟩
    · intro hcfg
      exact h hcfg
  · exact fun hcfg => h hcfg

theorem close_resetInv (s : GState) (h : resetInv s) :
    resetInv ((close s).1) := by
  cases hc : s.config with
  | none => rw [close_of_config_none s hc]; exact h
  | some cfg =>
      intro _
      obtain ⟨h1, h2, _, h4, h5⟩ := close_resets s cfg hc
      exact ⟨h1, h2, h4, h5⟩

theorem complete_resetInv (s : GState) (h : resetInv s) :
    resetInv ((complete s).1) := by
  cases hc : s.config with
  | none => rw [complete_of_config_none s hc]; exact h
  | some cfg =>
      have heq : (complete s).1 =
          (close (emit
            { s with store := setItem s.store (storeKey cfg.id) "true" }
            "tutorial:complete").1).1 := by
        simp [complete, hc]
      rw [heq]
      apply close_resetInv
      intro hcfg
      simp [hc] at hcfg

theorem start_resetInv (s : GState) (cfg : TutorialConfig) (dom : Dom) :
    resetInv ((start s cfg dom).1) := by
  intro hcfg
  rw [start_config] at hcfg
  simp at hcfg

theorem next_resetInv (s : GState) (dom : Dom) (h : resetInv s) :
    resetInv ((next s dom).1) := by
  unfold next
  split
  · exact goToStep_resetInv _ _ _ h
  · exact h

theorem previous_resetInv (s : GState) (dom : Dom) (h : resetInv s) :
    resetInv ((previous s dom).1) := by
  unfold previous
  split
  · exact goToStep_resetInv _ _ _ h
  · exact h

theorem skipTo_resetInv (s : GState) (stepId : String) (dom : Dom)
    (h : resetInv s) : resetInv ((skipTo s stepId dom).1) := by
  unfold skipTo
  cases hc : s.config with
  | none => exact h
  | some cfg =>
      dsimp only
      cases hf : cfg.steps.findIdx? (fun st => st.id = stepId) with
      | none => exact h
      | some i => exact goToStep_resetInv _ _ _ h

theorem resetCompletion_resetInv (s : GState) (tid : String)
    (h : resetInv s) : resetInv (resetCompletion s tid) := by
  intro hcfg
  exact h hcfg

theorem applyOp_resetInv (s : GState) (op : Op) (h : resetInv s) :
    resetInv (applyOp s op) := by
  cases op with
  | start cfg dom => exact start_resetInv s cfg dom
  | goToStep i dom => exact goToStep_resetInv s i dom h
  | next dom => exact next_resetInv s dom h
  | previous dom => exact previous_resetInv s dom h
  | skipTo stepId dom => exact skipTo_resetInv s stepId dom h
  | complete => exact complete_resetInv s h
  | close => exact close_resetInv s h
  | triggerAction n => exact emit_resetInv s n h
  | updateRect dom => exact updateTargetRect_resetInv s dom h
  | fireTimeout x => exact fireTimeout_resetInv s x h
  | resetCompletion tid => exact resetCompletion_resetInv s tid h

theorem run_resetInv (ops : List Op) (s : GState) (h : resetInv s) :
    resetInv (run s ops) := by
  induction ops generalizing s with
  | nil => exact h
  | cons op rest ih => exact ih (applyOp s op) (applyOp_resetInv s op h)

theorem storeKey_inj {a b : String} (h : storeKey a = storeKey b) :
    a = b := by
  unfold storeKey at h
  have hd := congrArg String.data h
  simp only [String.data_append] at hd
  have h2 := List.append_cancel_right hd
  have h3 := List.append_cancel_left h2
  cases a; cases b
  exact congrArg String.mk h3

theorem getItem_setItem_self (st : Store) (k v : String) :
    getItem (setItem st k v) k = some v := by
  simp [getItem, setItem]

theorem getItem_setItem (st : Store) (k v k2 : String) :
    getItem (setItem st k v) k2
      = if k2 = k then some v else getItem st k2 := rfl

theorem getItem_removeItem (st : Store) (k k2 : String) :
    getItem (removeItem st k) k2
      = if k2 = k then none else getItem st k2 := rfl

theorem fireTimeout_store (s : GState) (x : BusSub) :
    ((fireTimeout s x).1).store = s.store := by
  unfold fireTimeout
  split
  · dsimp only; split <;> rfl
  · rfl

theorem next_store (s : GState) (dom : Dom) :
    ((next s dom).1).store = s.store := by
  unfold next
  split
  · exact goToStep_store _ _ _
  · rfl

theorem previous_store (s : GState) (dom : Dom) :
    ((previous s dom).1).store = s.store := by
  unfold previous
  split
  · exact goToStep_store _ _ _
  · rfl

theorem skipTo_store (s : GState) (stepId : String) (dom : Dom) :
    ((skipTo s stepId dom).1).store = s.store := by
  unfold skipTo
  cases hc : s.config with
  | none => rfl
  | some cfg =>
      dsimp only
      cases hf : cfg.steps.findIdx? (fun st => st.id = stepId) with
      | none => rfl
      | some i => exact goToStep_store _ _ _

theorem applyOp_keeps_completed (s : GState) (c : String) (op : Op)
    (hop : opResetsCompletion c op = false)
    (h : getItem s.store (storeKey c) = some "true") :
    getItem (applyOp s op).store (storeKey c) = some "true" := by
  cases op with
  | start cfg dom => simp only [applyOp]; rw [start_store]; exact h
  | goToStep i dom => simp only [applyOp]; rw [goToStep_store]; exact h
  | next dom => simp only [applyOp]; rw [next_store]; exact h
  | previous dom => simp only [applyOp]; rw [previous_store]; exact h
  | skipTo stepId dom => simp only [applyOp]; rw [skipTo_store]; exact h
  | close => simp only [applyOp]; rw [close_store]; exact h
  | triggerAction n => simp only [applyOp, triggerAction]; rw [emit_store]; exact h
  | updateRect dom => simp only [applyOp]; rw [updateTargetRect_store]; exact h
  | fireTimeout x => simp only [applyOp]; rw [fireTimeout_store]; exact h
  | complete =>
      cases hc : s.config with
      | none =>
          simp only [applyOp]
          rw [complete_of_config_none s hc]
          exact h
      | some cfg =>
          simp only [applyOp]
          rw [complete_store_some s cfg hc, getItem_setItem]
          split
          · rfl
          · exact h
  | resetCompletion tid =>
      have hne : tid ≠ c := by simpa [opResetsCompletion] using hop
      simp only [applyOp, resetCompletion]
      rw [getItem_removeItem,
        if_neg (fun hk => hne (storeKey_inj hk).symm)]
      exact h

theorem run_keeps_completed (ops : List Op) (t : GState) (c : String)
    (hops : ∀ op ∈ ops, opResetsCompletion c op = false)
    (ht : getItem t.store (storeKey c) = some "true") :
    getItem (run t ops).store (storeKey c) = some "true" := by
  induction ops generalizing t with
  | nil => exact ht
  | cons op rest ih =>
      exact ih (applyOp t op)
        (fun o ho => hops o (List.mem_cons_of_mem _ ho))
        (applyOp_keeps_completed t c op (hops op (List.mem_cons_self _ _)) ht)

theorem actionHandlerBody_core (s t : GState) (x : BusSub)
    (h : sameCore s t) :
    sameCore (actionHandlerBody s x).1 (actionHandlerBody t x).1 := by
  obtain ⟨h1, h2, h3, h4, h5, h6, h7, h8, h9⟩ := h
  exact ⟨by simp [actionHandlerBody, h1], by simp [actionHandlerBody, h2],
    by simp [actionHandlerBody, h3], by simp [actionHandlerBody],
    by simp [actionHandlerBody, h5], by simp [actionHandlerBody],
    by simp [actionHandlerBody, h7], by simp [actionHandlerBody, h8],
    by simp [actionHandlerBody, h9]⟩

theorem dispatchList_core (l : List BusSub) (s t : GState)
    (h : sameCore s t) :
    sameCore (dispatchList s l).1 (dispatchList t l).1 ∧
    (dispatchList s l).2 = (dispatchList t l).2 := by
  induction l generalizing s t with
  | nil => exact ⟨h, rfl⟩
  | cons x rest ih =>
      have hx := actionHandlerBody_core s t x h
      obtain ⟨hc, htr⟩ := ih (actionHandlerBody s x).1
        (actionHandlerBody t x).1 hx
      refine ⟨?_, ?_⟩
      · simpa [dispatchList] using hc
      · simp only [dispatchList]
        rw [htr]
        rfl

theorem emit_core (s t : GState) (n : String) (h : sameCore s t) :
    sameCore (emit s n).1 (emit t n).1 ∧ (emit s n).2 = (emit t n).2 := by
  have hbus : s.busSubs = t.busSubs := h.2.2.2.2.2.2.1
  obtain ⟨hc, htr⟩ := dispatchList_core
    (s.busSubs.filter (fun x => x.event = n)) s t h
  rw [hbus] at hc htr
  exact ⟨by simpa [emit, hbus] using hc, by simp [emit, hbus, htr]⟩

theorem currentStep_core (s t : GState) (h : sameCore s t) :
    currentStep s = currentStep t := by
  obtain ⟨h1, h2, _⟩ := h
  simp [currentStep, h1, h2]

theorem updateTargetRect_core (s t : GState) (dom : Dom)
    (h : sameCore s t) :
    sameCore (updateTargetRect s dom) (updateTargetRect t dom) := by
  have hres : resolveRect s dom = resolveRect t dom := by
    simp [resolveRect, currentStep_core s t h]
  obtain ⟨h1, h2, h3, h4, h5, h6, h7, h8, h9⟩ := h
  exact ⟨by simpa using h1, by simpa using h2, by simpa using h3,
    by simpa using h4, by simpa using hres, by simpa using h6,
    by simpa using h7, by simpa using h8, by simpa using h9⟩

theorem setupActionListener_core (s t : GState) (e : String)
    (timo : Option Nat) (h : sameCore s t) :
    sameCore (setupActionListener s e timo)
      (setupActionListener t e timo) := by
  obtain ⟨h1, h2, h3, h4, h5, h6, h7, h8, h9⟩ := h
  exact ⟨by simp [h1], by simp [h2], by simp [h3], by simp [h4],
    by simp [h5], by simp [h9], by simp [h7, h9], by simp [h8, h9],
    by simp [h9]⟩

theorem cleanupHandler_core (s t : GState) (h : sameCore s t) :
    sameCore (cleanupHandler s) (cleanupHandler t) := by
  have hact : s.currentActionHandler = t.currentActionHandler :=
    h.2.2.2.2.2.1
  unfold cleanupHandler
  rw [← hact]
  cases hah : s.currentActionHandler with
  | none => exact h
  | some x =>
      obtain ⟨h1, h2, h3, h4, h5, h6, h7, h8, h9⟩ := h
      exact ⟨by simpa using h1, by simpa using h2, by simpa using h3,
        by simpa using h4, by simpa using h5, by simp,
        by simp [h7], by simpa using h8, by simpa using h9⟩

theorem setIndexWait_core (s t : GState) (i : Int) (h : sameCore s t) :
    sameCore { s with currentStepIndex := i, isWaitingForAction := false }
      { t with currentStepIndex := i, isWaitingForAction := false } := by
  obtain ⟨h1, h2, h3, h4, h5, h6, h7, h8, h9⟩ := h
  exact ⟨by simpa using h1, by simp, by simpa using h3, by simp,
    by simpa using h5, by simpa using h6, by simpa using h7,
    by simpa using h8, by simpa using h9⟩

theorem applyWait_core (s t : GState) (w : Option WaitForAction)
    (h : sameCore s t) : sameCore (applyWait s w) (applyWait t w) := by
  cases w with
  | none => exact h
  | some wfa =>
      unfold applyWait
      apply setupActionListener_core
      obtain ⟨h1, h2, h3, h4, h5, h6, h7, h8, h9⟩ := h
      exact ⟨by simpa using h1, by simpa using h2, by simpa using h3,
        by simp, by simpa using h5, by simpa using h6, by simpa using h7,
        by simpa using h8, by simpa using h9⟩

theorem goToStep_core (s t : GState) (i : Int) (dom : Dom)
    (h : sameCore s t) :
    sameCore (goToStep s i dom).1 (goToStep t i dom).1 ∧
    (goToStep s i dom).2 = (goToStep t i dom).2 := by
  have hcfg : s.config = t.config := h.1
  cases hc : s.config with
  | none =>
      rw [goToStep_of_config_none s i dom hc,
        goToStep_of_config_none t i dom (hcfg ▸ hc)]
      exact ⟨h, rfl⟩
  | some cfg =>
      have hct : t.config = some cfg := hcfg ▸ hc
      cases hs : stepAt cfg.steps i with
      | none =>
          have hls : goToStep s i dom = (s, []) := by simp [goToStep, hc, hs]
          have hlt : goToStep t i dom = (t, []) := by
            simp [goToStep, hct, hs]
          rw [hls, hlt]
          exact ⟨h, rfl⟩
      | some step =>
          have k1 := cleanupHandler_core s t h
          have k2 := setIndexWait_core _ _ i k1
          have k3 := updateTargetRect_core _ _ dom k2
          have k4 := applyWait_core _ _ step.waitForAction k3
          obtain ⟨hec, hetr⟩ := emit_core _ _ "tutorial:step-change" k4
          constructor
          · simp only [goToStep, hc, hct, hs]
            exact hec
          · simp only [goToStep, hc, hct, hs]
            rw [currentStep_core _ _ k1, hetr]

theorem start_core (s t : GState) (cfg : TutorialConfig) (dom : Dom)
    (h : sameCore s t) :
    sameCore (start s cfg dom).1 (start t cfg dom).1 ∧
    ((start s cfg dom).2).filter (fun e => !(isLogEv e))
      = ((start t cfg dom).2).filter (fun e => !(isLogEv e)) := by
  have k1 : sameCore
      { s with config := some cfg, currentStepIndex := 0, isActive := true }
      { t with config := some cfg, currentStepIndex := 0,
               isActive := true } := by
    obtain ⟨h1, h2, h3, h4, h5, h6, h7, h8, h9⟩ := h
    exact ⟨by simp, by simp, by simp, by simpa using h4, by simpa using h5,
      by simpa using h6, by simpa using h7, by simpa using h8,
      by simpa using h9⟩
  obtain ⟨k2, k2tr⟩ := emit_core _ _ "tutorial:start" k1
  obtain ⟨k3, k3tr⟩ := goToStep_core _ _ 0 dom k2
  constructor
  · simp only [start]
    exact k3
  · simp only [start, List.filter_append]
    rw [k2tr, k3tr]
    congr 1
    congr 1
    split <;> split <;> simp [isLogEv]

theorem goToStep_wait (s : GState) (cfg : TutorialConfig) (i : Int)
    (step : TutorialStep) (wfa : WaitForAction) (dom : Dom)
    (hcfg : s.config = some cfg) (hstep : stepAt cfg.steps i = some step)
    (hwfa : step.waitForAction = some wfa)
    (hres : wfa.event ≠ "tutorial:step-change")
    (hclean : s.busSubs = []) :
    ((goToStep s i dom).1).isWaitingForAction = true ∧
    ((goToStep s i dom).1).busSubs = [⟨wfa.event, s.nextGen⟩] ∧
    ((goToStep s i dom).1).currentActionHandler
      = some ⟨wfa.event, s.nextGen⟩ ∧
    ((goToStep s i dom).1).pendingTimers
      = s.pendingTimers
        ++ (if timeoutTruthy wfa.timeout then [⟨wfa.event, s.nextGen⟩]
            else []) ∧
    ((goToStep s i dom).1).currentStepIndex = i := by
  cases hact : s.currentActionHandler <;>
    simp [goToStep, cleanupHandler, applyWait, hcfg, hstep, hwfa, hclean,
      hact, emit, busOn, busOff, hres, dispatchList]

theorem triggerAction_other (st : GState) (g : BusSub) (n : String)
    (hbus : st.busSubs = [g]) (hn : n ≠ g.event) :
    (triggerAction st n).1 = st := by
  have hg : g.event ≠ n := fun hh => hn hh.symm
  simp [triggerAction, emit, hbus, dispatchList, hg]

theorem runTriggers_fixed (names : List String) (st : GState) (g : BusSub)
    (hbus : st.busSubs = [g]) (hnames : ∀ n ∈ names, n ≠ g.event) :
    runTriggers st names = st := by
  induction names with
  | nil => rfl
  | cons n rest ih =>
      have h1 : (triggerAction st n).1 = st :=
        triggerAction_other st g n hbus (hnames n (List.mem_cons_self _ _))
      calc runTriggers st (n :: rest)
          = runTriggers (triggerAction st n).1 rest := rfl
        _ = runTriggers st rest := by rw [h1]
        _ = st := ih (fun m hm => hnames m (List.mem_cons_of_mem _ hm))

theorem triggerAction_consume (st : GState) (g : BusSub)
    (hbus : st.busSubs = [g]) :
    ((triggerAction st g.event).1).isWaitingForAction = false ∧
    ((triggerAction st g.event).1).busSubs = [] ∧
    ((triggerAction st g.event).1).currentActionHandler = none ∧
    ((triggerAction st g.event).1).pendingTimers = st.pendingTimers ∧
    Ev.emitted "tutorial:action-completed" ∈ (triggerAction st g.event).2 := by
  simp [triggerAction, emit, hbus, dispatchList, actionHandlerBody, busOff]

theorem fireTimeout_fires (st : GState) (g : BusSub)
    (hmem : g ∈ st.pendingTimers) (hw : st.isWaitingForAction = true) :
    (fireTimeout st g).1
      = { st with pendingTimers := st.pendingTimers.erase g,
                  isWaitingForAction := false,
                  busSubs := busOff st.busSubs g,
                  currentActionHandler := none } ∧
    (fireTimeout st g).2 = [] := by
  simp [fireTimeout, hmem, hw]

theorem fireTimeout_stale (st : GState) (g : BusSub)
    (hw : st.isWaitingForAction = false) :
    (fireTimeout st g).1
      = (if g ∈ st.pendingTimers then
          { st with pendingTimers := st.pendingTimers.erase g }
         else st) ∧
    (fireTimeout st g).2 = [] := by
  by_cases hmem : g ∈ st.pendingTimers <;> simp [fireTimeout, hmem, hw]

@[simp] theorem cleanupHandler_config (s : GState) :
    (cleanupHandler s).config = s.config := by
  unfold cleanupHandler; cases s.currentActionHandler <;> rfl

@[simp] theorem cleanupHandler_currentStepIndex (s : GState) :
    (cleanupHandler s).currentStepIndex = s.currentStepIndex := by
  unfold cleanupHandler; cases s.currentActionHandler <;> rfl

theorem currentStep_eq (s : GState) (cfg : TutorialConfig)
    (h : s.config = some cfg) :
    currentStep s = stepAt cfg.steps s.currentStepIndex := by
  simp [currentStep, stepAt, h]

theorem goToStep_index (s : GState) (cfg : TutorialConfig) (i : Int)
    (step : TutorialStep) (dom : Dom) (hcfg : s.config = some cfg)
    (hs : stepAt cfg.steps i = some step) :
    ((goToStep s i dom).1).currentStepIndex = i := by
  cases hact : s.currentActionHandler <;>
    cases hwfa : step.waitForAction <;>
      simp [goToStep, cleanupHandler, applyWait, hcfg, hs, hact, hwfa]

theorem start_index (s : GState) (cfg : TutorialConfig)
    (step : TutorialStep) (dom : Dom)
    (hstep : stepAt cfg.steps 0 = some step) :
    ((start s cfg dom).1).currentStepIndex = 0 := by
  simp only [start]
  exact goToStep_index _ cfg 0 step dom (by simp) hstep

theorem start_first_onExit (s : GState) (cfg : TutorialConfig)
    (step : TutorialStep) (dom : Dom)
    (hstep : stepAt cfg.steps 0 = some step)
    (hex : step.hasOnExit = true) :
    Ev.onExitCalled step.id ∈ (start s cfg dom).2 := by
  simp only [start, List.mem_append]
  right
  have hr1cfg : ((emit
      { s with config := some cfg, currentStepIndex := 0,
               isActive := true } "tutorial:start").1).config
      = some cfg := by simp
  simp only [goToStep, hr1cfg, hstep, List.mem_append]
  left; left
  have hcs : currentStep (cleanupHandler (emit
      { s with config := some cfg, currentStepIndex := 0,
               isActive := true } "tutorial:start").1) = some step := by
    rw [currentStep_eq _ cfg (by simp [hr1cfg])]
    rw [show (cleanupHandler (emit
      { s with config := some cfg, currentStepIndex := 0,
               isActive := true } "tutorial:start").1).currentStepIndex
      = 0 by simp]
    exact hstep
  rw [hcs]
  simp [exitTrace, hex]

/-- C1: the spec requires start on a configuration with no steps to be
rejected with InvalidConfig; the code instead enters an active state with
a null current step.  Evaluating the embedded start at the failing input
(a configuration whose steps list is empty) exhibits the defect: the
engine is active, holds the configuration, and has no current step. -/
theorem C1_empty_config_activates :
    ((start (initState emptyStore) cfgEmpty domNone).1).isActive = true ∧
    currentStep ((start (initState emptyStore) cfgEmpty domNone).1)
      = none ∧
    ((start (initState emptyStore) cfgEmpty domNone).1).config
      = some cfgEmpty := by decide

/-- C2 counterexample: while cfgA (which has an onClose callback) is
active, start of cfgB makes cfgB active yet publishes no tutorial:close
and invokes no onClose — the claimed close-teardown does not happen. -/
theorem C2_counterexample :
    stateA.isActive = true ∧ stateA.config = some cfgA ∧
    cfgA.hasOnClose = true ∧
    ((start stateA cfgB domNone).1).config = some cfgB ∧
    ((start stateA cfgB domNone).2).all (fun e => !(isCloseTeardown e))
      = true := by decide

/-- C2 amended: starting B while A is active simply overwrites the single
active-configuration slot with B (so no two configurations are ever
concurrently active), but does NOT follow the close teardown path: no
tutorial:close publication and no onClose invocation occurs during
start. -/
theorem C2_start_overwrites (s : GState) (A B : TutorialConfig)
    (dom : Dom) (hA : s.config = some A) (hact : s.isActive = true) :
    ((start s B dom).1).config = some B ∧
    ((start s B dom).2).all (fun e => !(isCloseTeardown e)) = true := by
  refine ⟨start_config s B dom, ?_⟩
  rw [List.all_eq_true]
  intro e he
  simp [start_no_close_teardown s B dom e he]

theorem C2_witness :
    ((start stateA cfgB domNone).1).config = some cfgB ∧
    ((start stateA cfgB domNone).2).all (fun e => !(isCloseTeardown e))
      = true :=
  C2_start_overwrites stateA cfgA cfgB domNone (by decide) (by decide)

/-- C3 counterexample: start on a tour whose first step has an onExit
callback leaves the index at 0 (it is set to 0, not -1, before
goToStep(0)) and the trace of start contains the onExit invocation of
steps[0] — contradicting the claim that no onExit runs during start. -/
theorem C3_counterexample :
    ((start (initState emptyStore) cfgExit domNone).1).currentStepIndex
      = 0 ∧
    stepExit.hasOnExit = true ∧
    Ev.onExitCalled "s1"
      ∈ (start (initState emptyStore) cfgExit domNone).2 := by decide

/-- C3 amended: start sets the step index to 0 (not -1) before performing
goToStep(0); a current step (steps[0]) therefore already exists inside
goToStep(0), so steps[0].onExit IS awaited during start whenever it is
present. -/
theorem C3_start_invokes_first_onExit (s : GState)
    (cfg : TutorialConfig) (step : TutorialStep) (dom : Dom)
    (hstep : stepAt cfg.steps 0 = some step)
    (hex : step.hasOnExit = true) :
    ((start s cfg dom).1).currentStepIndex = 0 ∧
    Ev.onExitCalled step.id ∈ (start s cfg dom).2 :=
  ⟨start_index s cfg step dom hstep,
   start_first_onExit s cfg step dom hstep hex⟩

theorem C3_witness :
    ((start (initState emptyStore) cfgExit domNone).1).currentStepIndex
      = 0 ∧
    Ev.onExitCalled stepExit.id
      ∈ (start (initState emptyStore) cfgExit domNone).2 :=
  C3_start_invokes_first_onExit (initState emptyStore) cfgExit stepExit
    domNone (by decide) rfl

/-- C4: entering a step gated on a (non-reserved) event e raises
isWaitingForAction and registers the one-shot subscriber; publishing any
sequence of other event names leaves the state unchanged (no earlier
transition); triggerAction e lowers the flag, publishes
tutorial:action-completed, and the subscriber deregisters itself. -/
theorem C4_wait_gate (s : GState) (cfg : TutorialConfig) (i : Int)
    (step : TutorialStep) (e : String) (dom : Dom)
    (hcfg : s.config = some cfg) (hstep : stepAt cfg.steps i = some step)
    (hwfa : step.waitForAction = some ⟨e, none⟩)
    (hres : e ≠ "tutorial:step-change") (hclean : s.busSubs = []) :
    ((goToStep s i dom).1).isWaitingForAction = true ∧
    (∀ names : List String, (∀ n ∈ names, n ≠ e) →
      runTriggers (goToStep s i dom).1 names = (goToStep s i dom).1) ∧
    ((triggerAction (goToStep s i dom).1 e).1).isWaitingForAction
      = false ∧
    Ev.emitted "tutorial:action-completed"
      ∈ (triggerAction (goToStep s i dom).1 e).2 ∧
    ((triggerAction (goToStep s i dom).1 e).1).busSubs = [] ∧
    ((triggerAction (goToStep s i dom).1 e).1).currentActionHandler
      = none := by
  obtain ⟨hw, hbus, hcah, hpend, hidx⟩ :=
    goToStep_wait s cfg i step ⟨e, none⟩ dom hcfg hstep hwfa hres hclean
  have hcons := triggerAction_consume (goToStep s i dom).1
    ⟨e, s.nextGen⟩ hbus
  exact ⟨hw,
    fun names hn => runTriggers_fixed names _ ⟨e, s.nextGen⟩ hbus hn,
    hcons.1, hcons.2.2.2.2, hcons.2.1, hcons.2.2.1⟩

theorem C4_witness :
    ((goToStep stateWaitBase 0 domNone).1).isWaitingForAction = true ∧
    runTriggers (goToStep stateWaitBase 0 domNone).1 ["other"]
      = (goToStep stateWaitBase 0 domNone).1 ∧
    ((triggerAction (goToStep stateWaitBase 0 domNone).1
        "go").1).isWaitingForAction = false ∧
    Ev.emitted "tutorial:action-completed"
      ∈ (triggerAction (goToStep stateWaitBase 0 domNone).1 "go").2 ∧
    ((triggerAction (goToStep stateWaitBase 0 domNone).1 "go").1).busSubs
      = [] ∧
    ((triggerAction (goToStep stateWaitBase 0 domNone).1
        "go").1).currentActionHandler = none := by
  have h := C4_wait_gate stateWaitBase cfgWait 0 stepWait "go" domNone
    rfl (by decide) rfl (by decide) rfl
  exact ⟨h.1, h.2.1 ["other"] (by decide), h.2.2.1, h.2.2.2.1,
    h.2.2.2.2.1, h.2.2.2.2.2⟩

/-- C5: a step gated with a nonzero timeout schedules exactly one
fallback timer; when that timer fires while the gate still holds, the
waiting flag clears, nothing is published (empty trace), and the
subscriber is deregistered; when the timer fires after triggerAction
already cleared the gate, it only removes itself (stale-timeout guard:
the callback checks the waiting flag first). -/
theorem C5_timeout_race (s : GState) (cfg : TutorialConfig) (i : Int)
    (step : TutorialStep) (e : String) (t : Nat) (dom : Dom)
    (hcfg : s.config = some cfg) (hstep : stepAt cfg.steps i = some step)
    (hwfa : step.waitForAction = some ⟨e, some t⟩) (ht : t ≠ 0)
    (hres : e ≠ "tutorial:step-change") (hclean : s.busSubs = [])
    (hnt : s.pendingTimers = []) :
    ((goToStep s i dom).1).pendingTimers = [⟨e, s.nextGen⟩] ∧
    ((goToStep s i dom).1).isWaitingForAction = true ∧
    ((fireTimeout (goToStep s i dom).1
        ⟨e, s.nextGen⟩).1).isWaitingForAction = false ∧
    (fireTimeout (goToStep s i dom).1 ⟨e, s.nextGen⟩).2 = [] ∧
    ((fireTimeout (goToStep s i dom).1 ⟨e, s.nextGen⟩).1).busSubs = [] ∧
    ((fireTimeout (goToStep s i dom).1
        ⟨e, s.nextGen⟩).1).currentActionHandler = none ∧
    (fireTimeout (triggerAction (goToStep s i dom).1 e).1
        ⟨e, s.nextGen⟩).1
      = { (triggerAction (goToStep s i dom).1 e).1 with
          pendingTimers :=
            ((triggerAction (goToStep s i dom).1
                e).1).pendingTimers.erase ⟨e, s.nextGen⟩ } ∧
    (fireTimeout (triggerAction (goToStep s i dom).1 e).1
        ⟨e, s.nextGen⟩).2 = [] := by
  obtain ⟨hw, hbus, hcah, hpend, hidx⟩ :=
    goToStep_wait s cfg i step ⟨e, some t⟩ dom hcfg hstep hwfa hres hclean
  have htt : timeoutTruthy (some t) = true := by simp [timeoutTruthy, ht]
  have hpend2 : ((goToStep s i dom).1).pendingTimers
      = [⟨e, s.nextGen⟩] := by
    rw [hpend, hnt, htt]
    simp
  have hmem : (⟨e, s.nextGen⟩ : BusSub)
      ∈ ((goToStep s i dom).1).pendingTimers := by
    rw [hpend2]
    exact List.mem_singleton_self _
  obtain ⟨hfs, hftr⟩ :=
    fireTimeout_fires (goToStep s i dom).1 ⟨e, s.nextGen⟩ hmem hw
  have hcons := triggerAction_consume (goToStep s i dom).1
    ⟨e, s.nextGen⟩ hbus
  have hmem2 : (⟨e, s.nextGen⟩ : BusSub)
      ∈ ((triggerAction (goToStep s i dom).1 e).1).pendingTimers := by
    rw [hcons.2.2.2.1]
    exact hmem
  obtain ⟨hss, hstr⟩ := fireTimeout_stale
    (triggerAction (goToStep s i dom).1 e).1 ⟨e, s.nextGen⟩ hcons.1
  rw [if_pos hmem2] at hss
  refine ⟨hpend2, hw, ?_, hftr, ?_, ?_, hss, hstr⟩
  · rw [hfs]
  · rw [hfs]
    show busOff ((goToStep s i dom).1).busSubs ⟨e, s.nextGen⟩ = []
    rw [hbus]
    simp [busOff]
  · rw [hfs]

theorem C5_witness :
    ((goToStep stateWaitTBase 0 domNone).1).pendingTimers
      = [⟨"go", stateWaitTBase.nextGen⟩] ∧
    ((goToStep stateWaitTBase 0 domNone).1).isWaitingForAction = true ∧
    ((fireTimeout (goToStep stateWaitTBase 0 domNone).1
        ⟨"go", stateWaitTBase.nextGen⟩).1).isWaitingForAction = false ∧
    (fireTimeout (goToStep stateWaitTBase 0 domNone).1
        ⟨"go", stateWaitTBase.nextGen⟩).2 = [] ∧
    ((fireTimeout (goToStep stateWaitTBase 0 domNone).1
        ⟨"go", stateWaitTBase.nextGen⟩).1).busSubs = [] ∧
    ((fireTimeout (goToStep stateWaitTBase 0 domNone).1
        ⟨"go", stateWaitTBase.nextGen⟩).1).currentActionHandler = none ∧
    (fireTimeout (triggerAction (goToStep stateWaitTBase 0 domNone).1
        "go").1 ⟨"go", stateWaitTBase.nextGen⟩).1
      = { (triggerAction (goToStep stateWaitTBase 0 domNone).1 "go").1
          with pendingTimers :=
            ((triggerAction (goToStep stateWaitTBase 0
              domNone).1 "go").1).pendingTimers.erase ⟨"go", stateWaitTBase.nextGen⟩ } ∧
    (fireTimeout (triggerAction (goToStep stateWaitTBase 0 domNone).1
        "go").1 ⟨"go", stateWaitTBase.nextGen⟩).2 = [] :=
  C5_timeout_race stateWaitTBase cfgWaitT 0 stepWaitT "go" 1000 domNone
    rfl (by decide) rfl (by decide) (by decide) rfl rfl

/-- C6 counterexample: with two registered handlers where the first
throws, dispatch stops: the second handler is never invoked and the
dispatch does not run to completion — handler failures are NOT
isolated. -/
theorem C6_counterexample :
    (emitRun [⟨0, true⟩, ⟨1, false⟩]).1 = [0] ∧
    1 ∉ (emitRun [⟨0, true⟩, ⟨1, false⟩]).1 ∧
    (emitRun [⟨0, true⟩, ⟨1, false⟩]).2 = false := by decide

/-- C6 amended: publish invokes handlers in registration order only up to
and including the first handler that throws; handlers registered after it
are not invoked, and the exception escapes the dispatch loop (there is no
per-handler isolation in emit). -/
theorem C6_emit_stops_at_thrower (pre post : List Handler) (h : Handler)
    (hpre : ∀ p ∈ pre, p.throws = false) (hth : h.throws = true) :
    (emitRun (pre ++ h :: post)).1 = pre.map Handler.hid ++ [h.hid] ∧
    (emitRun (pre ++ h :: post)).2 = false := by
  induction pre with
  | nil => simp [emitRun, hth]
  | cons p rest ih =>
      have hp : p.throws = false := hpre p (List.mem_cons_self _ _)
      obtain ⟨ih1, ih2⟩ := ih (fun q hq => hpre q (List.mem_cons_of_mem _ hq))
      simp [emitRun, hp, ih1, ih2]

theorem C6_witness :
    (emitRun [⟨5, false⟩, ⟨6, true⟩, ⟨7, false⟩]).1 = [5, 6] ∧
    (emitRun [⟨5, false⟩, ⟨6, true⟩, ⟨7, false⟩]).2 = false :=
  C6_emit_stops_at_thrower [⟨5, false⟩] [⟨7, false⟩] ⟨6, true⟩
    (by decide) rfl

/-- C7: after close following any sequence of operations from a fresh
engine, the state is fully cleared (inactive, index -1, no current step,
no target rectangle, not waiting); moreover every reachable state with no
active configuration already has exactly these values. -/
theorem C7_close_always_resets (σ : Store) (ops : List Op) :
    (((close (run (initState σ) ops)).1).isActive = false ∧
     ((close (run (initState σ) ops)).1).currentStepIndex = -1 ∧
     currentStep ((close (run (initState σ) ops)).1) = none ∧
     ((close (run (initState σ) ops)).1).targetRect = none ∧
     ((close (run (initState σ) ops)).1).isWaitingForAction = false) ∧
    ((run (initState σ) ops).config = none →
      (run (initState σ) ops).isActive = false ∧
      (run (initState σ) ops).currentStepIndex = -1 ∧
      currentStep (run (initState σ) ops) = none ∧
      (run (initState σ) ops).targetRect = none ∧
      (run (initState σ) ops).isWaitingForAction = false) := by
  have hinv : resetInv (run (initState σ) ops) :=
    run_resetInv ops (initState σ) (resetInv_initState σ)
  constructor
  · cases hc : (run (initState σ) ops).config with
    | none =>
        rw [close_of_config_none _ hc]
        obtain ⟨h1, h2, h3, h4⟩ := hinv hc
        exact ⟨h1, h2, currentStep_of_config_none _ hc, h3, h4⟩
    | some cfg =>
        obtain ⟨h1, h2, h3, h4, h5⟩ := close_resets _ cfg hc
        exact ⟨h1, h2, currentStep_of_config_none _ h3, h4, h5⟩
  · intro hc
    obtain ⟨h1, h2, h3, h4⟩ := hinv hc
    exact ⟨h1, h2, currentStep_of_config_none _ hc, h3, h4⟩

theorem C7_witness :
    ((close (run (initState emptyStore)
        [Op.start cfgA domNone])).1).isActive = false ∧
    ((close (run (initState emptyStore)
        [Op.start cfgA domNone])).1).currentStepIndex = -1 ∧
    currentStep ((close (run (initState emptyStore)
        [Op.start cfgA domNone])).1) = none ∧
    ((close (run (initState emptyStore)
        [Op.start cfgA domNone])).1).targetRect = none ∧
    ((close (run (initState emptyStore)
        [Op.start cfgA domNone])).1).isWaitingForAction = false :=
  (C7_close_always_resets emptyStore [Op.start cfgA domNone]).1

/-- C8: complete on an engine holding a configuration records completion
for that configuration id; isCompleted stays true across any further
operations that do not resetCompletion that id; resetCompletion of the id
makes isCompleted false. -/
theorem C8_completion_persists (s : GState) (cfg : TutorialConfig)
    (h : s.config = some cfg) :
    isCompleted (complete s).1 cfg.id = true ∧
    (∀ ops : List Op,
      (∀ op ∈ ops, opResetsCompletion cfg.id op = false) →
      isCompleted (run (complete s).1 ops) cfg.id = true) ∧
    (∀ t : GState,
      isCompleted (resetCompletion t cfg.id) cfg.id = false) := by
  have hbase : getItem ((complete s).1).store (storeKey cfg.id)
      = some "true" := by
    rw [complete_store_some s cfg h, getItem_setItem_self]
  refine ⟨?_, ?_, ?_⟩
  · simp [isCompleted, hbase]
  · intro ops hops
    simp [isCompleted,
      run_keeps_completed ops (complete s).1 cfg.id hops hbase]
  · intro t
    simp [isCompleted, resetCompletion, getItem, removeItem]

theorem C8_witness :
    isCompleted (complete stateA).1 cfgA.id = true ∧
    isCompleted (run (complete stateA).1 [Op.close]) cfgA.id = true ∧
    isCompleted (resetCompletion (complete stateA).1 cfgA.id) cfgA.id
      = false := by
  have h := C8_completion_persists stateA cfgA (by decide)
  exact ⟨h.1, h.2.1 [Op.close] (by decide), h.2.2 (complete stateA).1⟩

/-- C9: start reads the persisted completion flag only for the console
log: two engines agreeing on everything except the store still agree on
everything except the store after start of the same configuration, both
stores are left unmodified, and the two event traces coincide once the
console-log record is filtered out — the flag never alters activation,
the step index, or later navigation. -/
theorem C9_start_ignores_persisted_completion (s t : GState)
    (cfg : TutorialConfig) (dom : Dom) (h : sameCore s t) :
    sameCore (start s cfg dom).1 (start t cfg dom).1 ∧
    ((start s cfg dom).1).store = s.store ∧
    ((start t cfg dom).1).store = t.store ∧
    ((start s cfg dom).2).filter (fun e => !(isLogEv e))
      = ((start t cfg dom).2).filter (fun e => !(isLogEv e)) := by
  obtain ⟨h1, h2⟩ := start_core s t cfg dom h
  exact ⟨h1, start_store s cfg dom, start_store t cfg dom, h2⟩

theorem C9_witness :
    sameCore
      (start (initState emptyStore) cfgWait domNone).1
      (start (initState (setItem emptyStore (storeKey "w") "true"))
        cfgWait domNone).1 ∧
    ((start (initState emptyStore) cfgWait domNone).1).store
      = (initState emptyStore).store ∧
    ((start (initState (setItem emptyStore (storeKey "w") "true"))
        cfgWait domNone).1).store
      = (initState (setItem emptyStore (storeKey "w") "true")).store ∧
    ((start (initState emptyStore) cfgWait domNone).2).filter
        (fun e => !(isLogEv e))
      = ((start (initState (setItem emptyStore (storeKey "w") "true"))
          cfgWait domNone).2).filter (fun e => !(isLogEv e)) :=
  C9_start_ignores_persisted_completion (initState emptyStore)
    (initState (setItem emptyStore (storeKey "w") "true")) cfgWait domNone
    ⟨rfl, rfl, rfl, rfl, rfl, rfl, rfl, rfl, rfl⟩

/-- C10: a waitForAction timeout of 0 is falsy, so no fallback timer is
scheduled; the gate stays raised under any publications of other names,
and only publishing the named event or closing the tour lowers it. -/
theorem C10_zero_timeout_no_timer (s : GState) (cfg : TutorialConfig)
    (i : Int) (step : TutorialStep) (e : String) (dom : Dom)
    (hcfg : s.config = some cfg) (hstep : stepAt cfg.steps i = some step)
    (hwfa : step.waitForAction = some ⟨e, some 0⟩)
    (hres : e ≠ "tutorial:step-change") (hclean : s.busSubs = []) :
    ((goToStep s i dom).1).pendingTimers = s.pendingTimers ∧
    ((goToStep s i dom).1).isWaitingForAction = true ∧
    (∀ names : List String, (∀ n ∈ names, n ≠ e) →
      runTriggers (goToStep s i dom).1 names = (goToStep s i dom).1) ∧
    ((triggerAction (goToStep s i dom).1 e).1).isWaitingForAction
      = false ∧
    ((close (goToStep s i dom).1).1).isWaitingForAction = false := by
  obtain ⟨hw, hbus, hcah, hpend, hidx⟩ :=
    goToStep_wait s cfg i step ⟨e, some 0⟩ dom hcfg hstep hwfa hres hclean
  have hpend2 : ((goToStep s i dom).1).pendingTimers
      = s.pendingTimers := by
    rw [hpend]
    simp [timeoutTruthy]
  have hcons := triggerAction_consume (goToStep s i dom).1
    ⟨e, s.nextGen⟩ hbus
  have hcl : ((close (goToStep s i dom).1).1).isWaitingForAction
      = false := by
    apply close_isWaiting_false _ cfg
    rw [goToStep_config]
    exact hcfg
  exact ⟨hpend2, hw,
    fun names hn => runTriggers_fixed names _ ⟨e, s.nextGen⟩ hbus hn,
    hcons.1, hcl⟩

theorem C10_witness :
    ((goToStep stateWaitZeroBase 0 domNone).1).pendingTimers
      = stateWaitZeroBase.pendingTimers ∧
    ((goToStep stateWaitZeroBase 0 domNone).1).isWaitingForAction
      = true ∧
    runTriggers (goToStep stateWaitZeroBase 0 domNone).1 ["other"]
      = (goToStep stateWaitZeroBase 0 domNone).1 ∧
    ((triggerAction (goToStep stateWaitZeroBase 0 domNone).1
        "go").1).isWaitingForAction = false ∧
    ((close (goToStep stateWaitZeroBase 0
        domNone).1).1).isWaitingForAction = false := by
  have h := C10_zero_timeout_no_timer stateWaitZeroBase cfgWaitZero 0
    stepWaitZero "go" domNone rfl (by decide) rfl (by decide) rfl
  exact ⟨h.1, h.2.1, h.2.2.1 ["other"] (by decide), h.2.2.2.1, h.2.2.2.2⟩

end Nudge
